import Mathlib

/-!
Verification of the MacroMate content script (`src/content-script.js`).

The script has three parts: a selector resolver (`getSelector`), an event
capture recorder (`startRecording` / `stopRecording` and the three capture
handlers `handleClick`, `handleInput`, `handleChange` over a module-level
state `isRecording` / `recordedSteps`), and a macro replay executor
(`runMacro` / `executeStep`).

The DOM is modelled as a tree of elements rooted at `document.body`; a node
is referenced by its child-index path from the body.  Recorded steps are
plain records with optional fields, mirroring the untyped JS objects.  The
replay executor is modelled against an abstract current document: a list of
selector strings that resolve to an element (`document.querySelector` finds
an element exactly for those; the empty selector is invalid in a browser and
never finds anything).  Replay side effects (scrolling, highlighting,
clicking, synthetic events, timed pauses) are reified as an `Effect` trace.
-/

/-- Attributes of a DOM element, covering exactly the properties the content
script reads: `tagName`, `id`, `name`, `className`, `type`, `value`,
`innerText`, `checked`. -/
structure Attrs where
  tagName : String := ""
  id : String := ""
  name : String := ""
  className : String := ""
  type : String := ""
  value : String := ""
  innerText : String := ""
  checked : Bool := false

/-- A DOM element: its attributes and its element children, in document
order.  The root of a document is `document.body`. -/
inductive Dom where
  | elem (attrs : Attrs) (children : List Dom)

def Dom.attrs : Dom → Attrs
  | .elem a _ => a

def Dom.children : Dom → List Dom
  | .elem _ cs => cs

/-- The same element with its `value` property replaced (used to state that
recording does not depend on the text typed into a password field). -/
def Dom.withValue : Dom → String → Dom
  | .elem a cs, v => .elem { a with value := v } cs

/-- Navigate from the body to the node referenced by a child-index path.
`[]` is the body itself. -/
def getNode : Dom → List Nat → Option Dom
  | d, [] => some d
  | d, i :: p =>
    match d.children[i]? with
    | some c => getNode c p
    | none => none

/-- JS `String.prototype.toLowerCase`, character by character. -/
def jsToLower (s : String) : String :=
  String.mk (s.data.map Char.toLower)

/-- JS `String.prototype.substring(0, n)`. -/
def substrTo (s : String) (n : Nat) : String :=
  String.mk (s.data.take n)

/-- Worker for `classTokens`: splits on runs of whitespace, dropping empty
pieces, accumulating the current token in reverse. -/
def wsTokensAux : List Char → List Char → List String
  | [], acc => if acc.isEmpty then [] else [String.mk acc.reverse]
  | c :: cs, acc =>
    if c.isWhitespace then
      (if acc.isEmpty then [] else [String.mk acc.reverse]) ++ wsTokensAux cs []
    else wsTokensAux cs (c :: acc)

/-- JS `className.trim().split(/\s+/).filter(c => c)`: the list of
non-empty whitespace-separated class tokens. -/
def classTokens (className : String) : List String :=
  wsTokensAux className.data []

/-- JS `Array.prototype.join(sep)`. -/
def joinSep (sep : String) : List String → String
  | [] => ""
  | [x] => x
  | x :: xs => x ++ sep ++ joinSep sep xs

/-- Whether an element matches the compound selector `tag.c₁.….cₙ` built by
`getSelector`: its lowercased tag equals `tagLower` and its class list
contains every token of `cls`. -/
def matchesCompound (tagLower : String) (cls : List String) (a : Attrs) : Bool :=
  jsToLower a.tagName == tagLower && cls.all (fun c => (classTokens a.className).contains c)

mutual
/-- `document.querySelectorAll(tag.c₁.….cₙ).length` over the whole document
tree (the body and all its descendants). -/
def countMatches (tagLower : String) (cls : List String) : Dom → Nat
  | .elem a cs =>
    (if matchesCompound tagLower cls a then 1 else 0) + countMatchesList tagLower cls cs
def countMatchesList (tagLower : String) (cls : List String) : List Dom → Nat
  | [] => 0
  | d :: ds => countMatches tagLower cls d + countMatchesList tagLower cls ds
end

/-- What one iteration of the positional-path loop reads from the current
element: its `tagName`, its `id`, and its 1-based ordinal among
same-`tagName` siblings (1 + the number of previous element siblings with
the same `tagName`). -/
structure LevelInfo where
  tagName : String
  id : String
  ordinal : Nat

/-- Reads the `LevelInfo` of the child at index `i` of the node at path `q`. -/
def levelOf (body : Dom) (q : List Nat) (i : Nat) : LevelInfo :=
  match getNode body q with
  | none => ⟨"", "", 1⟩
  | some parent =>
    match parent.children[i]? with
    | none => ⟨"", "", 1⟩
    | some c =>
      ⟨c.attrs.tagName, c.attrs.id,
        1 + ((parent.children.take i).filter
              (fun d => d.attrs.tagName == c.attrs.tagName)).length⟩

/-- The `while (current && current !== document.body)` loop of `getSelector`,
on the reversed path (leaf index first).  Emits the path segments in
root-to-leaf order: each level contributes the lowercased tag, with an
`:nth-of-type(n)` suffix when `n > 1`; a level with an `id` contributes
`tag#id`, becomes the root of the path, and stops the walk (`break`). -/
def buildPathRev (body : Dom) : List Nat → List String
  | [] => []
  | i :: rest =>
    let L := levelOf body rest.reverse i
    let tagLower := jsToLower L.tagName
    if L.id != "" then [tagLower ++ "#" ++ L.id]
    else buildPathRev body rest ++
      [tagLower ++ (if 1 < L.ordinal then ":nth-of-type(" ++ Nat.repr L.ordinal ++ ")" else "")]

/-- The class-combination branch of `getSelector`: builds `tag.c₁.….cₙ` and
accepts it only when `document.querySelectorAll` finds exactly one match. -/
def classSelectorOf (body : Dom) (a : Attrs) : Option String :=
  if a.className != "" then
    let classes := classTokens a.className
    if classes.length > 0 then
      let sel := jsToLower a.tagName ++ "." ++ joinSep "." classes
      if countMatches (jsToLower a.tagName) classes body == 1 then some sel else none
    else none
  else none

/-- `getSelector(element)` from the content script: `#id`, else
`[name="…"]`, else a uniquely-matching `tag.class…` compound, else the
positional path joined with `" > "`. -/
def getSelector (body : Dom) (p : List Nat) : String :=
  match getNode body p with
  | none => ""
  | some el =>
    let a := el.attrs
    if a.id != "" then "#" ++ a.id
    else if a.name != "" then "[name=\"" ++ a.name ++ "\"]"
    else
      match classSelectorOf body a with
      | some sel => sel
      | none => joinSep " > " (buildPathRev body p.reverse)

/-- Spec-side description of one emitted positional-path segment: an
identifier-anchored segment when the level has an identifier, otherwise the
lowercase tag name with an `:nth-of-type(n)` suffix exactly when the
1-based same-tag ordinal exceeds 1. -/
def specSegment (L : LevelInfo) : String :=
  if L.id != "" then jsToLower L.tagName ++ "#" ++ L.id
  else jsToLower L.tagName ++
    (if 1 < L.ordinal then ":nth-of-type(" ++ Nat.repr L.ordinal ++ ")" else "")

/-- The chain of levels visited walking from the node (leaf first) up to,
and exclusive of, the document's root container; stated on the reversed
path. -/
def levelChain (body : Dom) : List Nat → List LevelInfo
  | [] => []
  | i :: rest => levelOf body rest.reverse i :: levelChain body rest

/-- Spec-side truncation of the walk: keep the levels without an identifier
up to and including the first level that has one (the anchor); levels above
an identified ancestor are dropped. -/
def keptLevels (chain : List LevelInfo) : List LevelInfo :=
  chain.takeWhile (fun L => L.id == "") ++
    (chain.dropWhile (fun L => L.id == "")).take 1

/-- The positional-path fallback as worded by the spec: walk from the node
up to (exclusive of) the root container, stop at the first level with an
identifier and anchor there, render each kept level with `specSegment`, and
join the segments with the descendant combinator in root-to-leaf order. -/
def specWalk (body : Dom) (p : List Nat) : String :=
  joinSep " > " ((keptLevels (levelChain body p.reverse)).map specSegment).reverse

/-- One recorded step: a plain record with optional fields, mirroring the JS
object literals pushed by the capture handlers.  Absent fields are `none`. -/
structure Step where
  type : String := ""
  selector : Option String := none
  tagName : Option String := none
  text : Option String := none
  value : Option String := none
  checked : Option Bool := none
  secret : Option Bool := none
  timeout : Option Nat := none
  timestamp : Nat := 0
deriving Repr, DecidableEq

/-- The redaction marker stored instead of a password field's value. -/
def redactionMarker : String := "\x7b\x7bSECRET\x7d\x7d"

/-- The module-level recording state of the content script: the
`isRecording` flag, the `recordedSteps` buffer, and the set of capture
events it currently listens to. -/
structure RecState where
  isRecording : Bool := false
  recordedSteps : List Step := []
  listeners : List String := []
deriving Repr, DecidableEq

/-- The three capture events the recorder installs listeners for. -/
def captureEvents : List String := ["click", "input", "change"]

/-- `startRecording()`: sets the flag, clears the buffer, installs the three
capture listeners (the on-page indicator badge is cosmetic and not
modelled). -/
def startRecording (st : RecState) : RecState :=
  { st with isRecording := true, recordedSteps := [], listeners := captureEvents }

/-- `stopRecording()`: clears the flag, removes the three capture
listeners, and returns the accumulated buffer.  The buffer itself is left
as is (the source only returns `recordedSteps`; it is reset by the next
`startRecording`). -/
def stopRecording (st : RecState) : List Step × RecState :=
  (st.recordedSteps,
    { st with isRecording := false,
              listeners := st.listeners.filter (fun e => !captureEvents.contains e) })

/-- `handleClick(event)`: while recording, for any target other than the
recorder's own indicator, appends a `click` step with the resolved
selector, the lowercased tag name, and the first 50 characters of the
target's `innerText`. -/
def handleClick (body : Dom) (p : List Nat) (now : Nat) (st : RecState) : RecState :=
  if !st.isRecording then st
  else
    match getNode body p with
    | none => st
    | some el =>
      let a := el.attrs
      if a.id == "macromate-indicator" then st
      else
        { st with recordedSteps := st.recordedSteps ++
            [{ type := "click", selector := some (getSelector body p),
               tagName := some (jsToLower a.tagName),
               text := some (substrTo a.innerText 50), timestamp := now }] }

/-- `handleInput(event)`: while recording, resolves the target's selector,
redacts password fields, removes any previous `type` step with the same
selector, and appends a `type` step with the (possibly redacted) value. -/
def handleInput (body : Dom) (p : List Nat) (now : Nat) (st : RecState) : RecState :=
  if !st.isRecording then st
  else
    match getNode body p with
    | none => st
    | some el =>
      let a := el.attrs
      let selector := getSelector body p
      let isSecret := a.type == "password"
      { st with recordedSteps :=
          (st.recordedSteps.filter
            (fun step => !(step.type == "type" && step.selector == some selector))) ++
          [{ type := "type", selector := some selector,
             text := some (if isSecret then redactionMarker else a.value),
             secret := some isSecret, timestamp := now }] }

/-- `handleChange(event)`: while recording, appends a `select` step for a
`<select>` control, or a `click` step carrying the resulting `checked`
boolean for a checkbox/radio control; other targets are ignored. -/
def handleChange (body : Dom) (p : List Nat) (now : Nat) (st : RecState) : RecState :=
  if !st.isRecording then st
  else
    match getNode body p with
    | none => st
    | some el =>
      let a := el.attrs
      let selector := getSelector body p
      if jsToLower a.tagName == "select" then
        { st with recordedSteps := st.recordedSteps ++
            [{ type := "select", selector := some selector,
               value := some a.value, timestamp := now }] }
      else if a.type == "checkbox" || a.type == "radio" then
        { st with recordedSteps := st.recordedSteps ++
            [{ type := "click", selector := some selector,
               checked := some a.checked, timestamp := now }] }
      else st

/-- A burst of input events, each given by the document tree at the moment
the event fires, the target's path, and the event time. -/
def applyInputs (st : RecState) (evs : List (Dom × List Nat × Nat)) : RecState :=
  evs.foldl (fun s e => handleInput e.1 e.2.1 e.2.2 s) st

/-- Replay side effects, in the order the executor performs them. -/
inductive Effect where
  | scrollIntoView (sel : String)
  | waitMs (ms : Nat)
  | highlight (sel : String)
  | clickEl (sel : String)
  | focusEl (sel : String)
  | setValue (sel : String) (v : Option String)
  | dispatchEvent (sel : String) (ev : String)
  | warnUnknown (ty : String)
deriving Repr, DecidableEq

/-- The string actually passed to `document.querySelector(step.selector)`:
a step without a selector passes `undefined`, which the DOM API stringifies
to `"undefined"`. -/
def stepSel (step : Step) : String :=
  step.selector.getD "undefined"

/-- JS `step.timeout || 1000`: `undefined` and `0` are falsy. -/
def jsTruthyTimeout : Option Nat → Nat
  | none => 1000
  | some n => if n == 0 then 1000 else n

/-- The `switch (step.type)` dispatch of `executeStep`. -/
def dispatchEffects (step : Step) (sel : String) : List Effect :=
  if step.type == "click" then [Effect.clickEl sel]
  else if step.type == "type" then
    [Effect.focusEl sel, Effect.setValue sel step.text,
     Effect.dispatchEvent sel "input", Effect.dispatchEvent sel "change"]
  else if step.type == "select" then
    [Effect.setValue sel step.value, Effect.dispatchEvent sel "change"]
  else if step.type == "wait" then [Effect.waitMs (jsTruthyTimeout step.timeout)]
  else [Effect.warnUnknown step.type]

/-- The effects `executeStep` performs once the element is found: scroll
into view, a fixed 200 ms settle pause, a transient highlight, then the
per-kind dispatch. -/
def okEffects (step : Step) : List Effect :=
  [Effect.scrollIntoView (stepSel step), Effect.waitMs 200, Effect.highlight (stepSel step)] ++
    dispatchEffects step (stepSel step)

/-- Whether `document.querySelector(sel)` finds an element in the current
replay document, modelled as the list of selector strings that resolve.
The empty selector is invalid in a browser and never yields an element. -/
def querySelectorFound (doc : List String) (sel : String) : Bool :=
  sel != "" && doc.contains sel

/-- `executeStep(step)`: looks the selector up in the current document,
throwing `Element not found: …` when nothing matches, and otherwise
performs the settle/highlight prologue followed by the per-kind dispatch. -/
def executeStep (step : Step) (doc : List String) : Except String (List Effect) :=
  if querySelectorFound doc (stepSel step) then Except.ok (okEffects step)
  else Except.error ("Element not found: " ++ stepSel step)

/-- Outcome of a replay run: the trace of performed effects and, if a step
threw, the 1-based failing index together with the surfaced alert text. -/
structure RunResult where
  trace : List Effect
  failure : Option (Nat × String)
deriving Repr, DecidableEq

/-- The step loop of `runMacro`, carrying the number of steps already
executed.  Each successful step is followed by the fixed 500 ms inter-step
pause; the first error aborts the remaining sequence and surfaces
`Error at step i: …` with the 1-based index. -/
def runMacroFrom (doc : List String) : Nat → List Step → RunResult
  | _, [] => ⟨[], none⟩
  | i, s :: rest =>
    match executeStep s doc with
    | Except.ok effs =>
      let r := runMacroFrom doc (i + 1) rest
      ⟨effs ++ Effect.waitMs 500 :: r.trace, r.failure⟩
    | Except.error msg =>
      ⟨[], some (i + 1, "Error at step " ++ Nat.repr (i + 1) ++ ": " ++ msg)⟩

/-- `runMacro(steps)` against the current document (the running-indicator
badge is cosmetic and not modelled). -/
def runMacro (steps : List Step) (doc : List String) : RunResult :=
  runMacroFrom doc 0 steps

/-- Erases every `value` property in a document (the one attribute a secret
lives in for an input event); recording is shown not to depend on what
`scrub` erases. -/
def scrubAttrs (a : Attrs) : Attrs :=
  { a with value := "" }

mutual
def scrub : Dom → Dom
  | .elem a cs => .elem (scrubAttrs a) (scrubList cs)
def scrubList : List Dom → List Dom
  | [] => []
  | d :: ds => scrub d :: scrubList ds
end

mutual
/-- Replaces the `value` property of the node at the given path. -/
def setValueAt : Dom → List Nat → String → Dom
  | .elem a cs, [], v => .elem { a with value := v } cs
  | .elem a cs, i :: p, v => .elem a (setValueAtList cs i p v)
def setValueAtList : List Dom → Nat → List Nat → String → List Dom
  | [], _, _, _ => []
  | d :: ds, 0, p, v => setValueAt d p v :: ds
  | d :: ds, i + 1, p, v => d :: setValueAtList ds i p v
end

/-- A document whose body holds a single checkbox named `agree`, already
toggled to checked (the state a browser reports by the time the click and
change events fire). -/
def checkboxDoc : Dom :=
  .elem { tagName := "BODY" }
    [.elem { tagName := "INPUT", name := "agree", type := "checkbox", checked := true } []]

/-- A document whose body holds a single text field named `qty` currently
holding `v`. -/
def inputDoc (v : String) : Dom :=
  .elem { tagName := "BODY" }
    [.elem { tagName := "INPUT", name := "qty", value := v } []]

/-- A document whose body holds a single password field named `pw`. -/
def pwDoc : Dom :=
  .elem { tagName := "BODY" }
    [.elem { tagName := "INPUT", name := "pw", type := "password" } []]

/-- A document whose body holds two sibling `DIV`s with identical class
lists and no identifier or name. -/
def twinsDoc : Dom :=
  .elem { tagName := "BODY" }
    [.elem { tagName := "DIV", className := "card highlighted" } [],
     .elem { tagName := "DIV", className := "card highlighted" } []]

/-- A document exercising the positional walk: an identified `DIV` holding
two `P`s, the second of which holds an `EM` with no usable attributes. -/
def anchorDoc : Dom :=
  .elem { tagName := "BODY" }
    [.elem { tagName := "DIV", id := "main" }
      [.elem { tagName := "P" } [],
       .elem { tagName := "P" } [.elem { tagName := "EM" } []]]]

/-- A bare body with no identifier, no name and no classes. -/
def bareBody : Dom :=
  .elem { tagName := "BODY" } []

/-! ## Helper lemmas -/

/-- Mutual induction over the element/children structure of a document. -/
theorem dom_ind (P : Dom → Prop) (Q : List Dom → Prop)
    (h1 : ∀ a cs, Q cs → P (.elem a cs)) (h2 : Q [])
    (h3 : ∀ d ds, P d → Q ds → Q (d :: ds)) : ∀ d, P d :=
  fun d =>
    @Dom.rec P Q (fun a cs ih => h1 a cs ih) h2 (fun x xs ihx ihxs => h3 x xs ihx ihxs) d

/-- List form of `dom_ind`. -/
theorem domList_ind (P : Dom → Prop) (Q : List Dom → Prop)
    (h1 : ∀ a cs, Q cs → P (.elem a cs)) (h2 : Q [])
    (h3 : ∀ d ds, P d → Q ds → Q (d :: ds)) : ∀ ds, Q ds :=
  fun ds =>
    @Dom.rec_1 P Q (fun a cs ih => h1 a cs ih) h2 (fun x xs ihx ihxs => h3 x xs ihx ihxs) ds

theorem string_append_left_cancel {s a b : String} (h : s ++ a = s ++ b) : a = b := by
  have hd := congrArg String.data h
  simp only [String.data_append] at hd
  have := List.append_cancel_left hd
  cases a; cases b
  exact congrArg String.mk this

theorem string_append_right_cancel {a b s : String} (h : a ++ s = b ++ s) : a = b := by
  have hd := congrArg String.data h
  simp only [String.data_append] at hd
  have := List.append_cancel_right hd
  cases a; cases b
  exact congrArg String.mk this

theorem joinSep_cons_of_ne_nil (sep x : String) {xs : List String} (h : xs ≠ []) :
    joinSep sep (x :: xs) = x ++ sep ++ joinSep sep xs := by
  cases xs with
  | nil => exact absurd rfl h
  | cons y ys => rfl

theorem joinSep_snoc_inj (sep : String) :
    ∀ (xs : List String) (a b : String),
      joinSep sep (xs ++ [a]) = joinSep sep (xs ++ [b]) → a = b := by
  intro xs
  induction xs with
  | nil => intro a b h; simpa [joinSep] using h
  | cons x xs ih =>
    intro a b h
    rw [List.cons_append, List.cons_append,
      joinSep_cons_of_ne_nil sep x (by simp), joinSep_cons_of_ne_nil sep x (by simp)] at h
    exact ih a b (string_append_left_cancel h)

theorem toDigitsCore_eq_digits (fuel : Nat) : ∀ (n : Nat) (acc : List Char), n < fuel → n ≠ 0 →
    Nat.toDigitsCore 10 fuel n acc = ((Nat.digits 10 n).reverse.map Nat.digitChar) ++ acc := by
  induction fuel with
  | zero => intro n acc h; omega
  | succ f ih =>
    intro n acc h hn
    rw [Nat.digits_def' (by norm_num : 1 < 10) (Nat.pos_of_ne_zero hn)]
    simp only [Nat.toDigitsCore]
    by_cases h10 : n / 10 = 0
    · rw [if_pos h10, h10]
      simp
    · rw [if_neg h10]
      rw [ih (n / 10) _ (by omega : n / 10 < f) h10]
      simp

theorem nat_repr_eq_digits (n : Nat) (hn : n ≠ 0) :
    Nat.repr n = ((Nat.digits 10 n).reverse.map Nat.digitChar).asString := by
  show (Nat.toDigits 10 n).asString = _
  rw [Nat.toDigits, toDigitsCore_eq_digits (n + 1) n [] (Nat.lt_succ_self n) hn]
  simp

theorem digitChar_inj_lt10 :
    ∀ a, a < 10 → ∀ b, b < 10 → Nat.digitChar a = Nat.digitChar b → a = b := by
  decide

theorem map_digitChar_inj : ∀ l1 l2 : List Nat, (∀ x ∈ l1, x < 10) → (∀ x ∈ l2, x < 10) →
    l1.map Nat.digitChar = l2.map Nat.digitChar → l1 = l2 := by
  intro l1
  induction l1 with
  | nil =>
    intro l2 _ _ h
    cases l2 with
    | nil => rfl
    | cons b bs => simp at h
  | cons a as ih =>
    intro l2 h1 h2 h
    cases l2 with
    | nil => simp at h
    | cons b bs =>
      simp only [List.map_cons, List.cons.injEq] at h
      have ha : a = b := digitChar_inj_lt10 a (h1 a (by simp)) b (h2 b (by simp)) h.1
      have := ih bs (fun x hx => h1 x (by simp [hx])) (fun x hx => h2 x (by simp [hx])) h.2
      rw [ha, this]

theorem nat_repr_injective : ∀ m n : Nat, Nat.repr m = Nat.repr n → m = n := by
  have key : ∀ m n : Nat, m ≠ 0 → n ≠ 0 → Nat.repr m = Nat.repr n → m = n := by
    intro m n hm hn h
    rw [nat_repr_eq_digits m hm, nat_repr_eq_digits n hn] at h
    have hdata := congrArg String.data h
    simp only [List.asString] at hdata
    have hrev := map_digitChar_inj _ _
      (fun x hx => Nat.digits_lt_base (by norm_num) (List.mem_reverse.mp hx))
      (fun x hx => Nat.digits_lt_base (by norm_num) (List.mem_reverse.mp hx)) hdata
    have hd : Nat.digits 10 m = Nat.digits 10 n := by
      have := congrArg List.reverse hrev
      simpa using this
    have := congrArg (Nat.ofDigits 10) hd
    rwa [Nat.ofDigits_digits, Nat.ofDigits_digits] at this
  have zero_case : ∀ n : Nat, n ≠ 0 → Nat.repr 0 = Nat.repr n → False := by
    intro n hn h
    rw [nat_repr_eq_digits n hn] at h
    have hdata := congrArg String.data h
    simp only [List.asString] at hdata
    have h0 : Nat.repr 0 = "0" := rfl
    rw [h0] at hdata
    have hmap : ([0] : List Nat).map Nat.digitChar = ((Nat.digits 10 n).reverse).map Nat.digitChar := by
      simpa using hdata
    have := map_digitChar_inj _ _ (by simp)
      (fun x hx => Nat.digits_lt_base (by norm_num) (List.mem_reverse.mp hx)) hmap
    have hd : Nat.digits 10 n = [0] := by
      have := congrArg List.reverse this
      simpa using this.symm
    have := congrArg (Nat.ofDigits 10) hd
    rw [Nat.ofDigits_digits] at this
    simp [Nat.ofDigits] at this
    exact hn this
  intro m n h
  by_cases hm : m = 0
  · by_cases hn : n = 0
    · omega
    · exact absurd (zero_case n hn (hm ▸ h)) (fun f => f)
  · by_cases hn : n = 0
    · exact absurd (zero_case m hm (hn ▸ h.symm)) (fun f => f)
    · exact key m n hm hn h

theorem nth_suffix_inj (t : String) (m n : Nat) (hm : 0 < m) (hn : 0 < n)
    (h : t ++ (if 1 < m then ":nth-of-type(" ++ Nat.repr m ++ ")" else "")
       = t ++ (if 1 < n then ":nth-of-type(" ++ Nat.repr n ++ ")" else "")) : m = n := by
  have h' := string_append_left_cancel h
  by_cases h1 : 1 < m
  · by_cases h2 : 1 < n
    · rw [if_pos h1, if_pos h2] at h'
      have h'' := string_append_right_cancel h'
      have := string_append_left_cancel h''
      exact nat_repr_injective m n this
    · rw [if_pos h1, if_neg h2] at h'
      have hlen := congrArg String.length h'
      rw [String.length_append, String.length_append] at hlen
      have e1 : (":nth-of-type(" : String).length = 13 := by decide
      have e2 : (")" : String).length = 1 := by decide
      have e3 : ("" : String).length = 0 := by decide
      omega
  · by_cases h2 : 1 < n
    · rw [if_neg h1, if_pos h2] at h'
      have hlen := congrArg String.length h'.symm
      rw [String.length_append, String.length_append] at hlen
      have e1 : (":nth-of-type(" : String).length = 13 := by decide
      have e2 : (")" : String).length = 1 := by decide
      have e3 : ("" : String).length = 0 := by decide
      omega
    · omega

theorem countMatches_pos (t : String) (c : List String) (d : Dom)
    (h : matchesCompound t c d.attrs = true) : 1 ≤ countMatches t c d := by
  cases d with
  | elem a cs =>
    have h' : matchesCompound t c a = true := h
    show 1 ≤ (if matchesCompound t c a then 1 else 0) + countMatchesList t c cs
    rw [if_pos h']
    omega

theorem countMatchesList_mem_le (t : String) (c : List String) :
    ∀ (cs : List Dom) (i : Nat) (d : Dom), cs[i]? = some d →
      countMatches t c d ≤ countMatchesList t c cs := by
  intro cs
  induction cs with
  | nil => intro i d h; simp at h
  | cons x rest ih =>
    intro i d h
    show countMatches t c d ≤ countMatches t c x + countMatchesList t c rest
    cases i with
    | zero =>
      simp only [List.getElem?_cons_zero, Option.some.injEq] at h
      subst h
      omega
    | succ i' =>
      simp only [List.getElem?_cons_succ] at h
      have := ih i' d h
      omega

theorem countMatchesList_ge_two (t : String) (c : List String) :
    ∀ (cs : List Dom) (i j : Nat) (d1 d2 : Dom), i < j →
      cs[i]? = some d1 → cs[j]? = some d2 →
      matchesCompound t c d1.attrs = true → matchesCompound t c d2.attrs = true →
      2 ≤ countMatchesList t c cs := by
  intro cs
  induction cs with
  | nil => intro i j d1 d2 _ h1; simp at h1
  | cons x rest ih =>
    intro i j d1 d2 hij h1 h2 hm1 hm2
    show 2 ≤ countMatches t c x + countMatchesList t c rest
    cases i with
    | zero =>
      simp only [List.getElem?_cons_zero, Option.some.injEq] at h1
      subst h1
      cases j with
      | zero => omega
      | succ j' =>
        simp only [List.getElem?_cons_succ] at h2
        have hx := countMatches_pos t c x hm1
        have hr : countMatches t c d2 ≤ countMatchesList t c rest :=
          countMatchesList_mem_le t c rest j' d2 h2
        have := countMatches_pos t c d2 hm2
        omega
    | succ i' =>
      cases j with
      | zero => omega
      | succ j' =>
        simp only [List.getElem?_cons_succ] at h1 h2
        have := ih i' j' d1 d2 (by omega) h1 h2 hm1 hm2
        omega

theorem countMatches_subtree_le (t : String) (c : List String) :
    ∀ (q : List Nat) (body parent : Dom), getNode body q = some parent →
      countMatches t c parent ≤ countMatches t c body := by
  intro q
  induction q with
  | nil =>
    intro body parent h
    simp only [getNode, Option.some.injEq] at h
    subst h
    exact Nat.le_refl _
  | cons i rest ih =>
    intro body parent h
    cases body with
    | elem a cs =>
      simp only [getNode] at h
      cases hc : (Dom.elem a cs).children[i]? with
      | none => rw [hc] at h; exact absurd h (by simp)
      | some child =>
        rw [hc] at h
        have h1 := ih child parent h
        have h2 : countMatches t c child ≤ countMatchesList t c cs :=
          countMatchesList_mem_le t c cs i child hc
        have : countMatches t c (Dom.elem a cs)
            = (if matchesCompound t c a then 1 else 0) + countMatchesList t c cs := rfl
        omega

theorem filter_take_mono {α : Type} (p : α → Bool) (l : List α) (m n : Nat) (h : m ≤ n) :
    ((l.take m).filter p).length ≤ ((l.take n).filter p).length := by
  have : l.take n = l.take m ++ (l.drop m).take (n - m) := by
    rw [← List.take_add]
    congr 1
    omega
  rw [this, List.filter_append, List.length_append]
  omega

theorem filter_take_succ_of_match {α : Type} (p : α → Bool) (l : List α) (i : Nat) (d : α)
    (hd : l[i]? = some d) (hp : p d = true) :
    ((l.take (i + 1)).filter p).length = ((l.take i).filter p).length + 1 := by
  rw [List.take_succ, hd]
  simp [List.filter_append, hp]

theorem ordinal_strict_mono (cs : List Dom) (i j : Nat) (d1 d2 : Dom) (hij : i < j)
    (h1 : cs[i]? = some d1) (_h2 : cs[j]? = some d2)
    (ht : d1.attrs.tagName = d2.attrs.tagName) :
    ((cs.take i).filter (fun d => d.attrs.tagName == d2.attrs.tagName)).length <
      ((cs.take j).filter (fun d => d.attrs.tagName == d2.attrs.tagName)).length := by
  have hpd1 : (fun d => d.attrs.tagName == d2.attrs.tagName) d1 = true := by
    simp [ht]
  have hstep := filter_take_succ_of_match
    (fun d => d.attrs.tagName == d2.attrs.tagName) cs i d1 h1 hpd1
  have hmono := filter_take_mono
    (fun d => d.attrs.tagName == d2.attrs.tagName) cs (i + 1) j (by omega)
  omega

theorem scrubList_eq_map : ∀ ds : List Dom, scrubList ds = ds.map scrub := by
  intro ds
  induction ds with
  | nil => rfl
  | cons d rest ih => simp only [scrubList, List.map_cons, ih]

theorem scrub_elem (a : Attrs) (cs : List Dom) :
    scrub (.elem a cs) = .elem (scrubAttrs a) (scrubList cs) := rfl

theorem scrub_attrs (d : Dom) : (scrub d).attrs = scrubAttrs d.attrs := by
  cases d; rfl

theorem scrub_children (d : Dom) : (scrub d).children = d.children.map scrub := by
  cases d with
  | elem a cs => simp only [scrub_elem, Dom.children, scrubList_eq_map]

theorem getNode_scrub : ∀ (p : List Nat) (b : Dom),
    getNode (scrub b) p = (getNode b p).map scrub := by
  intro p
  induction p with
  | nil => intro b; rfl
  | cons i rest ih =>
    intro b
    cases b with
    | elem a cs =>
      show getNode (scrub (.elem a cs)) (i :: rest) = _
      rw [scrub_elem]
      simp only [getNode, Dom.children, scrubList_eq_map, List.getElem?_map]
      cases hc : cs[i]? with
      | none => rfl
      | some c => exact ih c

theorem matchesCompound_scrubAttrs (t : String) (c : List String) (a : Attrs) :
    matchesCompound t c (scrubAttrs a) = matchesCompound t c a := rfl

theorem countMatches_scrub (t : String) (c : List String) :
    ∀ d : Dom, countMatches t c (scrub d) = countMatches t c d := by
  apply dom_ind (fun d => countMatches t c (scrub d) = countMatches t c d)
    (fun ds => countMatchesList t c (scrubList ds) = countMatchesList t c ds)
  · intro a cs ih
    rw [scrub_elem]
    show (if matchesCompound t c (scrubAttrs a) then 1 else 0) + countMatchesList t c (scrubList cs)
      = (if matchesCompound t c a then 1 else 0) + countMatchesList t c cs
    rw [matchesCompound_scrubAttrs, ih]
  · rfl
  · intro d ds ihd ihds
    show countMatches t c (scrub d) + countMatchesList t c (scrubList ds)
      = countMatches t c d + countMatchesList t c ds
    rw [ihd, ihds]

theorem countMatchesList_scrub (t : String) (c : List String) :
    ∀ ds : List Dom, countMatchesList t c (scrubList ds) = countMatchesList t c ds := by
  apply domList_ind (fun d => countMatches t c (scrub d) = countMatches t c d)
    (fun ds => countMatchesList t c (scrubList ds) = countMatchesList t c ds)
  · intro a cs ih
    rw [scrub_elem]
    show (if matchesCompound t c (scrubAttrs a) then 1 else 0) + countMatchesList t c (scrubList cs)
      = (if matchesCompound t c a then 1 else 0) + countMatchesList t c cs
    rw [matchesCompound_scrubAttrs, ih]
  · rfl
  · intro d ds ihd ihds
    show countMatches t c (scrub d) + countMatchesList t c (scrubList ds)
      = countMatches t c d + countMatchesList t c ds
    rw [ihd, ihds]

theorem levelOf_scrub (body : Dom) (q : List Nat) (i : Nat) :
    levelOf (scrub body) q i = levelOf body q i := by
  unfold levelOf
  rw [getNode_scrub]
  cases hq : getNode body q with
  | none => rfl
  | some parent =>
    simp only [Option.map_some']
    rw [scrub_children, List.getElem?_map]
    cases hc : parent.children[i]? with
    | none => rfl
    | some c =>
      simp only [Option.map_some']
      have e1 : (scrubAttrs c.attrs).tagName = c.attrs.tagName := rfl
      have e2 : (scrubAttrs c.attrs).id = c.attrs.id := rfl
      rw [scrub_attrs, e1, e2, ← List.map_take, List.filter_map]
      have hcomp : ((fun d => d.attrs.tagName == c.attrs.tagName) ∘ scrub)
          = (fun d => d.attrs.tagName == c.attrs.tagName) := by
        funext d
        simp only [Function.comp_apply, scrub_attrs]
        rfl
      rw [hcomp, List.length_map]

theorem buildPathRev_scrub (body : Dom) :
    ∀ rp : List Nat, buildPathRev (scrub body) rp = buildPathRev body rp := by
  intro rp
  induction rp with
  | nil => rfl
  | cons i rest ih =>
    simp only [buildPathRev, levelOf_scrub, ih]

theorem classSelectorOf_scrub (body : Dom) (a : Attrs) :
    classSelectorOf (scrub body) (scrubAttrs a) = classSelectorOf body a := by
  unfold classSelectorOf
  simp only [scrubAttrs]
  rw [countMatches_scrub]

theorem getSelector_scrub (body : Dom) (p : List Nat) :
    getSelector (scrub body) p = getSelector body p := by
  unfold getSelector
  rw [getNode_scrub]
  cases hq : getNode body p with
  | none => rfl
  | some el =>
    simp only [Option.map_some']
    rw [scrub_attrs]
    show (if (scrubAttrs el.attrs).id != "" then "#" ++ (scrubAttrs el.attrs).id else _) = _
    have hid : (scrubAttrs el.attrs).id = el.attrs.id := rfl
    have hname : (scrubAttrs el.attrs).name = el.attrs.name := rfl
    rw [hid, hname, classSelectorOf_scrub, buildPathRev_scrub]

theorem scrub_setValueAt : ∀ (p : List Nat) (b : Dom) (v : String),
    scrub (setValueAt b p v) = scrub b := by
  intro p
  induction p with
  | nil =>
    intro b v
    cases b with
    | elem a cs => rfl
  | cons i rest ih =>
    intro b v
    cases b with
    | elem a cs =>
      show scrub (.elem a (setValueAtList cs i rest v)) = scrub (.elem a cs)
      rw [scrub_elem, scrub_elem]
      congr 1
      rw [scrubList_eq_map, scrubList_eq_map]
      clear a
      induction cs generalizing i with
      | nil => rfl
      | cons d ds ihl =>
        cases i with
        | zero =>
          show (setValueAt d rest v :: ds).map scrub = (d :: ds).map scrub
          simp only [List.map_cons, ih d v]
        | succ i' =>
          show (d :: setValueAtList ds i' rest v).map scrub = (d :: ds).map scrub
          simp only [List.map_cons]
          rw [ihl i']

theorem getSelector_setValueAt (b : Dom) (p q : List Nat) (v : String) :
    getSelector (setValueAt b p v) q = getSelector b q := by
  rw [← getSelector_scrub (setValueAt b p v) q, scrub_setValueAt, getSelector_scrub]

theorem setValueAtList_getElem_self (rest : List Nat) (v : String) :
    ∀ (cs : List Dom) (i : Nat) (c : Dom), cs[i]? = some c →
      (setValueAtList cs i rest v)[i]? = some (setValueAt c rest v) := by
  intro cs
  induction cs with
  | nil => intro i c h; simp at h
  | cons d ds ih =>
    intro i c h
    cases i with
    | zero =>
      simp only [List.getElem?_cons_zero, Option.some.injEq] at h
      subst h
      have e : setValueAtList (d :: ds) 0 rest v = setValueAt d rest v :: ds := rfl
      rw [e, List.getElem?_cons_zero]
    | succ i' =>
      simp only [List.getElem?_cons_succ] at h
      show (d :: setValueAtList ds i' rest v)[i' + 1]? = _
      simp only [List.getElem?_cons_succ]
      exact ih i' c h

theorem getNode_setValueAt_self : ∀ (p : List Nat) (b el : Dom) (v : String),
    getNode b p = some el → getNode (setValueAt b p v) p = some (el.withValue v) := by
  intro p
  induction p with
  | nil =>
    intro b el v h
    simp only [getNode, Option.some.injEq] at h
    subst h
    cases b with
    | elem a cs => rfl
  | cons i rest ih =>
    intro b el v h
    cases b with
    | elem a cs =>
      simp only [getNode, Dom.children] at h
      cases hc : cs[i]? with
      | none => rw [hc] at h; exact absurd h (by simp)
      | some c =>
        rw [hc] at h
        show getNode (.elem a (setValueAtList cs i rest v)) (i :: rest) = _
        simp only [getNode, Dom.children]
        rw [setValueAtList_getElem_self rest v cs i c hc]
        exact ih c el v h

theorem handleInput_eq (body : Dom) (p : List Nat) (now : Nat) (st : RecState) (el : Dom)
    (hrec : st.isRecording = true) (hel : getNode body p = some el) :
    handleInput body p now st =
      { st with recordedSteps :=
          (st.recordedSteps.filter
            (fun step => !(step.type == "type" && step.selector == some (getSelector body p)))) ++
          [{ type := "type", selector := some (getSelector body p),
             text := some (if el.attrs.type == "password" then redactionMarker else el.attrs.value),
             secret := some (el.attrs.type == "password"), timestamp := now }] } := by
  unfold handleInput
  rw [hrec, hel]
  rfl

theorem handleInput_isRecording (body : Dom) (p : List Nat) (now : Nat) (st : RecState) :
    (handleInput body p now st).isRecording = st.isRecording := by
  unfold handleInput
  cases hrec : st.isRecording with
  | false => simp [hrec]
  | true =>
    simp only [hrec, Bool.not_true, Bool.false_eq_true, if_false]
    cases hel : getNode body p with
    | none => exact hrec
    | some el => rfl

theorem applyInputs_isRecording :
    ∀ (evs : List (Dom × List Nat × Nat)) (st : RecState),
      (applyInputs st evs).isRecording = st.isRecording := by
  intro evs
  induction evs with
  | nil => intro st; rfl
  | cons e rest ih =>
    intro st
    show (applyInputs (handleInput e.1 e.2.1 e.2.2 st) rest).isRecording = st.isRecording
    rw [ih, handleInput_isRecording]

theorem applyInputs_snoc (st : RecState) (evs : List (Dom × List Nat × Nat))
    (e : Dom × List Nat × Nat) :
    applyInputs st (evs ++ [e]) = handleInput e.1 e.2.1 e.2.2 (applyInputs st evs) := by
  unfold applyInputs
  rw [List.foldl_append]
  rfl

theorem getNode_append : ∀ (q : List Nat) (body parent c : Dom) (i : Nat),
    getNode body q = some parent → parent.children[i]? = some c →
    getNode body (q ++ [i]) = some c := by
  intro q
  induction q with
  | nil =>
    intro body parent c i hq hc
    simp only [getNode, Option.some.injEq] at hq
    subst hq
    show getNode body [i] = some c
    simp only [getNode, hc]
  | cons j rest ih =>
    intro body parent c i hq hc
    cases body with
    | elem a cs =>
      simp only [getNode, Dom.children] at hq ⊢
      cases hchild : cs[j]? with
      | none => rw [hchild] at hq; exact absurd hq (by simp)
      | some child =>
        rw [hchild] at hq
        exact ih child parent c i hq hc

theorem all_contains_self (l : List String) : (l.all fun c => l.contains c) = true := by
  rw [List.all_eq_true]
  intro c hc
  exact List.elem_eq_true_of_mem hc

theorem withValue_attrs (d : Dom) (v : String) :
    (d.withValue v).attrs = { d.attrs with value := v } := by
  cases d; rfl

theorem buildPathRev_eq_spec (body : Dom) :
    ∀ rp : List Nat,
      buildPathRev body rp = ((keptLevels (levelChain body rp)).map specSegment).reverse := by
  intro rp
  induction rp with
  | nil => rfl
  | cons i rest ih =>
    show buildPathRev body (i :: rest) = _
    have hchain : levelChain body (i :: rest)
        = levelOf body rest.reverse i :: levelChain body rest := rfl
    rw [hchain]
    by_cases hid : ((levelOf body rest.reverse i).id == "") = true
    · have hkept : keptLevels (levelOf body rest.reverse i :: levelChain body rest)
          = levelOf body rest.reverse i :: keptLevels (levelChain body rest) := by
        unfold keptLevels
        rw [List.takeWhile_cons, List.dropWhile_cons, if_pos hid, if_pos hid]
        rfl
      rw [hkept]
      have hbid : ((levelOf body rest.reverse i).id != "") = false := by
        simp only [bne]
        rw [hid]
        rfl
      show (if ((levelOf body rest.reverse i).id != "") = true then _ else _) = _
      rw [hbid]
      simp only [Bool.false_eq_true, if_false, List.map_cons, List.reverse_cons, ih]
      congr 1
      unfold specSegment
      rw [hbid]
      simp
    · have hkept : keptLevels (levelOf body rest.reverse i :: levelChain body rest)
          = [levelOf body rest.reverse i] := by
        unfold keptLevels
        rw [List.takeWhile_cons, List.dropWhile_cons, if_neg hid, if_neg hid]
        rfl
      rw [hkept]
      have hbid : ((levelOf body rest.reverse i).id != "") = true := by
        simp only [bne]
        simp only [Bool.eq_false_iff] at hid
        simp [hid]
      show (if ((levelOf body rest.reverse i).id != "") = true then _ else _) = _
      rw [hbid]
      simp only [if_true, List.map_cons, List.map_nil, List.reverse_cons, List.reverse_nil,
        List.nil_append]
      unfold specSegment
      rw [hbid]
      simp

/-! ## Claim theorems -/

/-- Claim C1 (evaluation of the code at the failing input): while recording,
a single checkbox toggle — the browser dispatches `click` and then `change`
on the checkbox — appends TWO steps to the buffer: `handleClick` has no
checkbox/radio suppression and records an activation `click` step, and
`handleChange` then records a second `click` step carrying the resulting
checked boolean.  The claim says the click handler appends nothing for a
toggle control and one gesture yields exactly one step. -/
theorem c1_checkbox_double_record :
    (handleChange checkboxDoc [0] 101
        (handleClick checkboxDoc [0] 100 (startRecording {}))).recordedSteps =
      [{ type := "click", selector := some "[name=\"agree\"]", tagName := some "input",
         text := some "", timestamp := 100 },
       { type := "click", selector := some "[name=\"agree\"]", checked := some true,
         timestamp := 101 }] := by
  decide

/-- Claim C2 counterexample: a `wait` step is not exempt from the per-step
element lookup.  A `wait` step with no selector makes `executeStep` look up
`"undefined"` and abort with an element-not-found failure — so a `wait`
step CAN abort the replay — and even when the selector resolves, the
executor scrolls, settles and highlights before pausing, rather than
pausing `timeoutMs` and doing nothing else. -/
theorem c2_wait_counterexample :
    executeStep { type := "wait", timeout := some 50 } [] =
        Except.error "Element not found: undefined" ∧
      executeStep { type := "wait", timeout := some 50, selector := some "#go" } ["#go"] =
        Except.ok [Effect.scrollIntoView "#go", Effect.waitMs 200, Effect.highlight "#go",
          Effect.waitMs 50] :=
  ⟨rfl, rfl⟩

/-- Claim C2 (amended): executing a step of kind `wait` whose selector
resolves performs the executor's common per-step prologue — element
lookup, smooth scroll, 200 ms settle pause, highlight — and then pauses
for the step's `timeout` value, defaulting to 1000 ms when unspecified (or
zero), taking no further action; when the selector does not resolve the
step aborts with an element-not-found failure like any other step. -/
theorem c2_wait_amended (step : Step) (doc : List String)
    (hty : step.type = "wait")
    (hfound : querySelectorFound doc (stepSel step) = true) :
    executeStep step doc =
      Except.ok [Effect.scrollIntoView (stepSel step), Effect.waitMs 200,
        Effect.highlight (stepSel step), Effect.waitMs (jsTruthyTimeout step.timeout)] := by
  unfold executeStep okEffects dispatchEffects
  rw [hfound, hty]
  simp

/-- Witness for `c2_wait_amended` at a concrete wait step and document. -/
theorem c2_wait_amended_witness :
    querySelectorFound ["#go"]
        (stepSel { type := "wait", timeout := some 50, selector := some "#go" }) = true ∧
      executeStep { type := "wait", timeout := some 50, selector := some "#go" } ["#go"] =
        Except.ok [Effect.scrollIntoView "#go", Effect.waitMs 200, Effect.highlight "#go",
          Effect.waitMs 50] :=
  ⟨by decide,
   c2_wait_amended { type := "wait", timeout := some 50, selector := some "#go" } ["#go"]
     rfl (by decide)⟩

/-- Claim C3 counterexample: immediately after `stopRecording` returns, the
session's internal buffer is NOT empty — the source returns
`recordedSteps` without clearing it. -/
theorem c3_stop_counterexample :
    ¬((stopRecording
        { isRecording := true,
          recordedSteps := [{ type := "click", selector := some "#go", timestamp := 5 }],
          listeners := ["click", "input", "change"] }).2.recordedSteps = []) := by
  decide

/-- Claim C3 (amended): `stopRecording()` clears the recording flag,
removes the three capture listeners, and returns the accumulated buffer —
but it does not clear the buffer: the state keeps the recorded steps until
the next `startRecording` resets them. -/
theorem c3_stop_amended (steps : List Step) :
    stopRecording
        { isRecording := true, recordedSteps := steps,
          listeners := ["click", "input", "change"] } =
      (steps, { isRecording := false, recordedSteps := steps, listeners := [] }) := by
  unfold stopRecording
  simp [captureEvents]

/-- Claim C10: `resolve` can return the empty string: on a root container
with no identifier, no name attribute and no classes the positional walk
produces no segments, so `getSelector` joins an empty list — and the empty
selector never finds an element at replay time (`document.querySelector`
rejects it). -/
theorem c10_empty_selector :
    bareBody.attrs.id = "" ∧ bareBody.attrs.name = "" ∧
      classTokens bareBody.attrs.className = [] ∧
      getSelector bareBody [] = "" ∧
      ∀ doc : List String, querySelectorFound doc "" = false := by
  refine ⟨rfl, rfl, by decide, by decide, ?_⟩
  intro doc
  rfl

theorem executeStep_found (step : Step) (doc : List String)
    (h : querySelectorFound doc (stepSel step) = true) :
    executeStep step doc = Except.ok (okEffects step) := by
  unfold executeStep
  rw [h]
  rfl

theorem executeStep_not_found (step : Step) (doc : List String)
    (h : querySelectorFound doc (stepSel step) = false) :
    executeStep step doc = Except.error ("Element not found: " ++ stepSel step) := by
  unfold executeStep
  rw [h]
  rfl

theorem runMacroFrom_failFast (doc : List String) (s : Step) (post : List Step)
    (hs : querySelectorFound doc (stepSel s) = false) :
    ∀ (pre : List Step) (i : Nat),
      (∀ t ∈ pre, querySelectorFound doc (stepSel t) = true) →
      runMacroFrom doc i (pre ++ s :: post) =
        ⟨(pre.map (fun t => okEffects t ++ [Effect.waitMs 500])).flatten,
         some (i + pre.length + 1,
           "Error at step " ++ Nat.repr (i + pre.length + 1) ++ ": "
             ++ ("Element not found: " ++ stepSel s))⟩ := by
  intro pre
  induction pre with
  | nil =>
    intro i hpre
    show runMacroFrom doc i (s :: post) = _
    simp only [runMacroFrom, executeStep_not_found s doc hs]
    simp [String.append_assoc]
  | cons t rest ih =>
    intro i hpre
    have ht : querySelectorFound doc (stepSel t) = true := hpre t (by simp)
    show runMacroFrom doc i (t :: (rest ++ s :: post)) = _
    simp only [runMacroFrom, executeStep_found t doc ht]
    rw [ih (i + 1) (fun u hu => hpre u (by simp [hu]))]
    have hidx : i + 1 + rest.length + 1 = i + (t :: rest).length + 1 := by
      simp [List.length_cons]
      omega
    simp only [List.map_cons, List.flatten_cons, hidx]
    simp [List.append_assoc]

/-- Claim C4: for every macro in which the steps before position `i` all
resolve and step `i`'s selector matches no element in the current document,
`runMacro` performs exactly the effects of the preceding steps (each with
its 500 ms inter-step pause), aborts without attempting any later step —
the trace contains nothing from `post` — and surfaces a failure carrying
the 1-based index of the failing step and its selector. -/
theorem c4_replay_fail_fast (doc : List String) (pre post : List Step) (s : Step)
    (hpre : ∀ t ∈ pre, querySelectorFound doc (stepSel t) = true)
    (hs : querySelectorFound doc (stepSel s) = false) :
    runMacro (pre ++ s :: post) doc =
      ⟨(pre.map (fun t => okEffects t ++ [Effect.waitMs 500])).flatten,
       some (pre.length + 1,
         "Error at step " ++ Nat.repr (pre.length + 1) ++ ": "
           ++ ("Element not found: " ++ stepSel s))⟩ := by
  unfold runMacro
  rw [runMacroFrom_failFast doc s post hs pre 0 hpre]
  have h0 : 0 + pre.length + 1 = pre.length + 1 := by omega
  rw [h0]

/-- Witness for `c4_replay_fail_fast`: the spec's three-step scenario — a
document containing only `#a`, a macro clicking `#a`, `#b`, `#c` — performs
step 1's effect, aborts before step 3, and reports failure at index 2 with
selector `#b`. -/
theorem c4_replay_fail_fast_witness :
    (∀ t ∈ [({ type := "click", selector := some "#a" } : Step)],
        querySelectorFound ["#a"] (stepSel t) = true) ∧
      querySelectorFound ["#a"] (stepSel { type := "click", selector := some "#b" }) = false ∧
      runMacro [{ type := "click", selector := some "#a" },
          { type := "click", selector := some "#b" },
          { type := "click", selector := some "#c" }] ["#a"] =
        ⟨[Effect.scrollIntoView "#a", Effect.waitMs 200, Effect.highlight "#a",
            Effect.clickEl "#a", Effect.waitMs 500],
         some (2, "Error at step 2: Element not found: #b")⟩ := by
  refine ⟨by decide, by decide, ?_⟩
  have h := c4_replay_fail_fast ["#a"]
    [{ type := "click", selector := some "#a" }]
    [{ type := "click", selector := some "#c" }]
    { type := "click", selector := some "#b" }
    (by decide) (by decide)
  exact h

/-- Claim C5: for any burst of input events ending with one on a field that
resolves to `sel` and is not a password field, the buffer afterwards holds
exactly one `type` step for `sel`, and it carries the field's final value —
earlier `type` steps for the same selector from any earlier events are
gone. -/
theorem c5_type_dedup (st : RecState) (evs : List (Dom × List Nat × Nat))
    (body : Dom) (p : List Nat) (now : Nat) (el : Dom)
    (hrec : st.isRecording = true) (hel : getNode body p = some el)
    (hsecret : el.attrs.type ≠ "password") :
    (applyInputs st (evs ++ [(body, p, now)])).recordedSteps.filter
        (fun s => s.type == "type" && s.selector == some (getSelector body p)) =
      [{ type := "type", selector := some (getSelector body p),
         text := some el.attrs.value, secret := some false, timestamp := now }] := by
  rw [applyInputs_snoc]
  have hrec' : (applyInputs st evs).isRecording = true := by
    rw [applyInputs_isRecording]
    exact hrec
  rw [handleInput_eq body p now (applyInputs st evs) el hrec' hel]
  have hsec : (el.attrs.type == "password") = false := by
    exact beq_eq_false_iff_ne.mpr hsecret
  rw [hsec]
  simp only [Bool.false_eq_true, if_false, List.filter_append, List.filter_filter]
  have hzero :
      (applyInputs st evs).recordedSteps.filter
        (fun a => ((a.type == "type" && a.selector == some (getSelector body p)) &&
          !(a.type == "type" && a.selector == some (getSelector body p)))) = [] := by
    simp
  rw [hzero]
  simp

/-- Witness for `c5_type_dedup`: three successive input events on the same
field with values `"a"`, `"ab"`, `"abc"` leave exactly one `type` step for
that field, with text `"abc"`. -/
theorem c5_type_dedup_witness :
    List.filter
        (fun s => s.type == "type" &&
          s.selector == some (getSelector (inputDoc "abc") [0]))
        (applyInputs (startRecording {})
          ([(inputDoc "a", [0], 1), (inputDoc "ab", [0], 2)] ++
            [(inputDoc "abc", [0], 3)])).recordedSteps =
      [{ type := "type", selector := some (getSelector (inputDoc "abc") [0]),
         text := some "abc", secret := some false, timestamp := 3 }] := by
  have h := c5_type_dedup (startRecording {})
    [(inputDoc "a", [0], 1), (inputDoc "ab", [0], 2)]
    (inputDoc "abc") [0] 3 (Dom.elem { tagName := "INPUT", name := "qty", value := "abc" } [])
    rfl rfl (by decide)
  exact h

/-- Claim C9: after any input event while recording, the buffer's single
`type` step for the target's selector is the buffer's LAST element: the
dedup rule removes the earlier `type` step from its original position and
appends the replacement at the end, leaving the other steps in place. -/
theorem c9_type_step_last (body : Dom) (p : List Nat) (now : Nat) (st : RecState) (el : Dom)
    (hrec : st.isRecording = true) (hel : getNode body p = some el) :
    ∃ s : Step,
      (handleInput body p now st).recordedSteps.getLast? = some s ∧
      s.type = "type" ∧ s.selector = some (getSelector body p) ∧
      (handleInput body p now st).recordedSteps =
        st.recordedSteps.filter
          (fun x => !(x.type == "type" && x.selector == some (getSelector body p))) ++ [s] := by
  rw [handleInput_eq body p now st el hrec hel]
  refine ⟨{ type := "type", selector := some (getSelector body p),
            text := some (if el.attrs.type == "password" then redactionMarker
              else el.attrs.value),
            secret := some (el.attrs.type == "password"), timestamp := now }, ?_, rfl, rfl, rfl⟩
  exact List.getLast?_concat _

/-- Witness for `c9_type_step_last`: an input event on a buffer already
holding a `type` step for the same field and an interleaved click. -/
theorem c9_type_step_last_witness :
    ∃ s : Step,
      (handleInput (inputDoc "hi") [0] 7
          { isRecording := true,
            recordedSteps := [{ type := "type", selector := some "[name=\"qty\"]",
                                text := some "h", secret := some false, timestamp := 1 },
                              { type := "click", selector := some "#go", timestamp := 2 }],
            listeners := ["click", "input", "change"] }).recordedSteps.getLast? = some s ∧
      s.type = "type" ∧ s.selector = some (getSelector (inputDoc "hi") [0]) ∧
      (handleInput (inputDoc "hi") [0] 7
          { isRecording := true,
            recordedSteps := [{ type := "type", selector := some "[name=\"qty\"]",
                                text := some "h", secret := some false, timestamp := 1 },
                              { type := "click", selector := some "#go", timestamp := 2 }],
            listeners := ["click", "input", "change"] }).recordedSteps =
        ([{ type := "type", selector := some "[name=\"qty\"]",
            text := some "h", secret := some false, timestamp := 1 },
          { type := "click", selector := some "#go", timestamp := 2 }] : List Step).filter
          (fun x => !(x.type == "type" &&
            x.selector == some (getSelector (inputDoc "hi") [0]))) ++ [s] :=
  c9_type_step_last (inputDoc "hi") [0] 7
    { isRecording := true,
      recordedSteps := [{ type := "type", selector := some "[name=\"qty\"]",
                          text := some "h", secret := some false, timestamp := 1 },
                        { type := "click", selector := some "#go", timestamp := 2 }],
      listeners := ["click", "input", "change"] }
    (Dom.elem { tagName := "INPUT", name := "qty", value := "hi" } []) rfl rfl

/-- Claim C6: for an input event on a password-type field the recorded
`type` step's text is the redaction marker, and the whole recording state
after the event does not depend on the secret value: two runs that differ
only in the value typed into the field produce identical states, hence
identical `type` steps. -/
theorem c6_secret_redaction (body : Dom) (p : List Nat) (now : Nat) (st : RecState)
    (el : Dom) (v1 v2 : String)
    (hrec : st.isRecording = true) (hel : getNode body p = some el)
    (hpw : el.attrs.type = "password") :
    handleInput (setValueAt body p v1) p now st = handleInput (setValueAt body p v2) p now st ∧
      (handleInput (setValueAt body p v1) p now st).recordedSteps.getLast? =
        some { type := "type", selector := some (getSelector body p),
               text := some redactionMarker, secret := some true, timestamp := now } := by
  have h1 := handleInput_eq (setValueAt body p v1) p now st (el.withValue v1) hrec
    (getNode_setValueAt_self p body el v1 hel)
  have h2 := handleInput_eq (setValueAt body p v2) p now st (el.withValue v2) hrec
    (getNode_setValueAt_self p body el v2 hel)
  rw [getSelector_setValueAt] at h1 h2
  have hty1 : ((el.withValue v1).attrs.type == "password") = true := by
    rw [withValue_attrs]
    exact beq_iff_eq.mpr hpw
  have hty2 : ((el.withValue v2).attrs.type == "password") = true := by
    rw [withValue_attrs]
    exact beq_iff_eq.mpr hpw
  rw [hty1] at h1
  rw [hty2] at h2
  simp only [if_true] at h1 h2
  constructor
  · rw [h1, h2]
  · rw [h1]
    exact List.getLast?_concat _

/-- Witness for `c6_secret_redaction`: typing `"hunter2"` or `"other"`
into the password field yields identical states, whose last step carries
the redaction marker. -/
theorem c6_secret_redaction_witness :
    handleInput (setValueAt pwDoc [0] "hunter2") [0] 9 (startRecording {}) =
        handleInput (setValueAt pwDoc [0] "other") [0] 9 (startRecording {}) ∧
      (handleInput (setValueAt pwDoc [0] "hunter2") [0] 9
          (startRecording {})).recordedSteps.getLast? =
        some { type := "type", selector := some (getSelector pwDoc [0]),
               text := some redactionMarker, secret := some true, timestamp := 9 } :=
  c6_secret_redaction pwDoc [0] 9 (startRecording {})
    (Dom.elem { tagName := "INPUT", name := "pw", type := "password" } [])
    "hunter2" "other" rfl rfl rfl

/-- Claim C8: when the resolver's first three branches do not apply — the
node has no identifier, no name attribute, and no accepted class
combination — `getSelector` returns exactly the spec's positional walk:
from the node up to (exclusive of) the document's root container, the
lowercase tag name with an `:nth-of-type(n)` suffix only when the 1-based
same-tag ordinal exceeds 1, anchored (and stopped) at the first level with
an identifier, joined with the descendant combinator in root-to-leaf
order. -/
theorem c8_positional_path (body : Dom) (p : List Nat) (el : Dom)
    (hel : getNode body p = some el)
    (hid : el.attrs.id = "") (hname : el.attrs.name = "")
    (hcls : classSelectorOf body el.attrs = none) :
    getSelector body p = specWalk body p := by
  unfold getSelector specWalk
  rw [hel]
  have hbid : (el.attrs.id != "") = false := by
    rw [hid]
    rfl
  have hbname : (el.attrs.name != "") = false := by
    rw [hname]
    rfl
  simp only [hbid, hbname, Bool.false_eq_true, if_false, hcls]
  rw [buildPathRev_eq_spec]

/-- Witness for `c8_positional_path`: in `anchorDoc` the `EM` node resolves
to the identifier-anchored positional path `div#main > p:nth-of-type(2) >
em`, matching the spec-side walk. -/
theorem c8_positional_path_witness :
    getSelector anchorDoc [0, 1, 0] = specWalk anchorDoc [0, 1, 0] ∧
      getSelector anchorDoc [0, 1, 0] = "div#main > p:nth-of-type(2) > em" :=
  ⟨c8_positional_path anchorDoc [0, 1, 0] (Dom.elem { tagName := "EM" } [])
     rfl rfl rfl (by decide),
   by decide⟩

theorem classSelectorOf_none_of_ambiguous (body : Dom) (a : Attrs)
    (h : 2 ≤ countMatches (jsToLower a.tagName) (classTokens a.className) body) :
    classSelectorOf body a = none := by
  simp only [classSelectorOf]
  split
  · split
    · have hne : (countMatches (jsToLower a.tagName) (classTokens a.className) body == 1)
          = false := beq_eq_false_iff_ne.mpr (by omega)
      rw [hne]
      rfl
    · rfl
  · rfl

theorem levelOf_eval (body : Dom) (q : List Nat) (i : Nat) (parent c : Dom)
    (hq : getNode body q = some parent) (hc : parent.children[i]? = some c) :
    levelOf body q i =
      ⟨c.attrs.tagName, c.attrs.id,
        1 + ((parent.children.take i).filter
          (fun d => d.attrs.tagName == c.attrs.tagName)).length⟩ := by
  unfold levelOf
  simp only [hq, hc]

theorem buildPathRev_cons_no_id (body : Dom) (q : List Nat) (i : Nat) (parent c : Dom)
    (hq : getNode body q = some parent) (hc : parent.children[i]? = some c)
    (hid : c.attrs.id = "") :
    buildPathRev body (i :: q.reverse) =
      buildPathRev body q.reverse ++
        [jsToLower c.attrs.tagName ++
          (if 1 < 1 + ((parent.children.take i).filter
              (fun d => d.attrs.tagName == c.attrs.tagName)).length
           then ":nth-of-type(" ++ Nat.repr (1 + ((parent.children.take i).filter
              (fun d => d.attrs.tagName == c.attrs.tagName)).length) ++ ")"
           else "")] := by
  simp only [buildPathRev]
  rw [List.reverse_reverse, levelOf_eval body q i parent c hq hc]
  simp only [hid]
  rfl

/-- Claim C7: for two distinct same-tag sibling nodes with identical class
lists and no identifier or name attribute, the compound `tag.class…`
selector matches at least two elements, so the resolver does not accept the
class-combination form for either sibling (it only accepts it when the
whole-document query yields exactly one match); both siblings fall through
to the positional path, and those paths are distinct — they differ in the
`:nth-of-type` ordinal of the leaf segment. -/
theorem c7_sibling_ambiguity (body : Dom) (q : List Nat) (parent : Dom) (i j : Nat)
    (el1 el2 : Dom)
    (hq : getNode body q = some parent) (hij : i ≠ j)
    (h1 : parent.children[i]? = some el1) (h2 : parent.children[j]? = some el2)
    (hid1 : el1.attrs.id = "") (hname1 : el1.attrs.name = "")
    (hid2 : el2.attrs.id = "") (hname2 : el2.attrs.name = "")
    (htag : el1.attrs.tagName = el2.attrs.tagName)
    (hcls : classTokens el1.attrs.className = classTokens el2.attrs.className) :
    2 ≤ countMatches (jsToLower el1.attrs.tagName) (classTokens el1.attrs.className) body ∧
      classSelectorOf body el1.attrs = none ∧
      classSelectorOf body el2.attrs = none ∧
      getSelector body (q ++ [i]) = joinSep " > " (buildPathRev body (q ++ [i]).reverse) ∧
      getSelector body (q ++ [j]) = joinSep " > " (buildPathRev body (q ++ [j]).reverse) ∧
      getSelector body (q ++ [i]) ≠ getSelector body (q ++ [j]) := by
  have hm1 : matchesCompound (jsToLower el1.attrs.tagName)
      (classTokens el1.attrs.className) el1.attrs = true := by
    unfold matchesCompound
    rw [beq_self_eq_true, all_contains_self]
    rfl
  have hm2 : matchesCompound (jsToLower el1.attrs.tagName)
      (classTokens el1.attrs.className) el2.attrs = true := by
    unfold matchesCompound
    rw [htag, hcls, beq_self_eq_true, all_contains_self]
    rfl
  have hlist : 2 ≤ countMatchesList (jsToLower el1.attrs.tagName)
      (classTokens el1.attrs.className) parent.children := by
    rcases Nat.lt_or_ge i j with hlt | hge
    · exact countMatchesList_ge_two _ _ parent.children i j el1 el2 hlt h1 h2 hm1 hm2
    · have hji : j < i := by omega
      exact countMatchesList_ge_two _ _ parent.children j i el2 el1 hji h2 h1 hm2 hm1
  have hparent : 2 ≤ countMatches (jsToLower el1.attrs.tagName)
      (classTokens el1.attrs.className) parent := by
    cases parent with
    | elem a cs =>
      simp only [Dom.children] at hlist
      show 2 ≤ (if matchesCompound (jsToLower el1.attrs.tagName)
        (classTokens el1.attrs.className) a then 1 else 0) +
          countMatchesList (jsToLower el1.attrs.tagName) (classTokens el1.attrs.className) cs
      by_cases hma : matchesCompound (jsToLower el1.attrs.tagName)
          (classTokens el1.attrs.className) a = true
      · rw [if_pos hma]; omega
      · rw [if_neg hma]; omega
  have hcount : 2 ≤ countMatches (jsToLower el1.attrs.tagName)
      (classTokens el1.attrs.className) body :=
    le_trans hparent (countMatches_subtree_le _ _ q body parent hq)
  have hcount2 : 2 ≤ countMatches (jsToLower el2.attrs.tagName)
      (classTokens el2.attrs.className) body := by
    rw [← htag, ← hcls]
    exact hcount
  have hnone1 : classSelectorOf body el1.attrs = none :=
    classSelectorOf_none_of_ambiguous body el1.attrs hcount
  have hnone2 : classSelectorOf body el2.attrs = none :=
    classSelectorOf_none_of_ambiguous body el2.attrs hcount2
  have hnode1 : getNode body (q ++ [i]) = some el1 := getNode_append q body parent el1 i hq h1
  have hnode2 : getNode body (q ++ [j]) = some el2 := getNode_append q body parent el2 j hq h2
  have hpos1 : getSelector body (q ++ [i])
      = joinSep " > " (buildPathRev body (q ++ [i]).reverse) := by
    unfold getSelector
    rw [hnode1]
    have hbid : (el1.attrs.id != "") = false := by rw [hid1]; rfl
    have hbname : (el1.attrs.name != "") = false := by rw [hname1]; rfl
    simp only [hbid, hbname, Bool.false_eq_true, if_false, hnone1]
  have hpos2 : getSelector body (q ++ [j])
      = joinSep " > " (buildPathRev body (q ++ [j]).reverse) := by
    unfold getSelector
    rw [hnode2]
    have hbid : (el2.attrs.id != "") = false := by rw [hid2]; rfl
    have hbname : (el2.attrs.name != "") = false := by rw [hname2]; rfl
    simp only [hbid, hbname, Bool.false_eq_true, if_false, hnone2]
  refine ⟨hcount, hnone1, hnone2, hpos1, hpos2, ?_⟩
  intro heq
  rw [hpos1, hpos2] at heq
  rw [show (q ++ [i]).reverse = i :: q.reverse by simp,
      show (q ++ [j]).reverse = j :: q.reverse by simp] at heq
  rw [buildPathRev_cons_no_id body q i parent el1 hq h1 hid1,
      buildPathRev_cons_no_id body q j parent el2 hq h2 hid2] at heq
  have hseg := joinSep_snoc_inj " > " _ _ _ heq
  rw [htag] at hseg
  have hords := nth_suffix_inj (jsToLower el2.attrs.tagName) _ _
    (by omega) (by omega) hseg
  rcases Nat.lt_or_ge i j with hlt | hge
  · have hmono := ordinal_strict_mono parent.children i j el1 el2 hlt h1 h2 htag
    omega
  · have hji : j < i := by omega
    have hmono := ordinal_strict_mono parent.children j i el2 el1 hji h2 h1 htag.symm
    rw [htag] at hmono
    omega

/-- Witness for `c7_sibling_ambiguity`: the two identically-classed sibling
`DIV`s of `twinsDoc` resolve to the distinct positional selectors `div` and
`div:nth-of-type(2)`, never to the ambiguous compound `div.card.highlighted`. -/
theorem c7_sibling_ambiguity_witness :
    getSelector twinsDoc [0] ≠ getSelector twinsDoc [1] ∧
      getSelector twinsDoc [0] = "div" ∧
      getSelector twinsDoc [1] = "div:nth-of-type(2)" ∧
      classSelectorOf twinsDoc
        (Dom.elem { tagName := "DIV", className := "card highlighted" } []).attrs = none := by
  have h := c7_sibling_ambiguity twinsDoc [] twinsDoc 0 1
    (Dom.elem { tagName := "DIV", className := "card highlighted" } [])
    (Dom.elem { tagName := "DIV", className := "card highlighted" } [])
    rfl (by decide) rfl rfl rfl rfl rfl rfl rfl rfl
  exact ⟨h.2.2.2.2.2, by decide, by decide, h.2.1⟩
